import Mathlib

/-
Verification of the VPLCodeGenerator documentation-metadata extraction tool.

The Python dictionaries manipulated by the member resolvers are modelled as
association lists over `String` keys, with the three primitive operations the
source uses: `dict.setdefault` (keep an existing binding, append otherwise),
plain assignment `d[k] = v` (replace in place, append otherwise) and `del d[k]`.
Lookups follow the first binding, matching Python dict semantics on lists that
represent dicts (one binding per key; the operations below never create a
second binding for a key that is already bound).
-/

def alookup {α : Type} : List (String × α) → String → Option α
  | [], _ => none
  | p :: t, k => if p.1 = k then some p.2 else alookup t k

def setdefaultL {α : Type} (l : List (String × α)) (k : String) (v : α) : List (String × α) :=
  if (alookup l k).isSome then l else l ++ [(k, v)]

def insertL {α : Type} : List (String × α) → String → α → List (String × α)
  | [], k, v => [(k, v)]
  | p :: t, k, v => if p.1 = k then (k, v) :: t else p :: insertL t k v

def eraseL {α : Type} : List (String × α) → String → List (String × α)
  | [], _ => []
  | p :: t, k => if p.1 = k then eraseL t k else p :: eraseL t k

/-- Combination of two optional values preferring the first, written out to keep
rewriting predictable. -/
def oor {α : Type} : Option α → Option α → Option α
  | some v, _ => some v
  | none, o => o

theorem oor_none_left {α : Type} (o : Option α) : oor none o = o := rfl

theorem oor_some_left {α : Type} (v : α) (o : Option α) : oor (some v) o = some v := rfl

theorem oor_assoc {α : Type} (a b c : Option α) : oor (oor a b) c = oor a (oor b c) := by
  cases a <;> rfl

theorem oor_none_right {α : Type} (a : Option α) : oor a none = a := by
  cases a <;> rfl

theorem alookup_append {α : Type} (l₁ l₂ : List (String × α)) (k : String) :
    alookup (l₁ ++ l₂) k = oor (alookup l₁ k) (alookup l₂ k) := by
  induction l₁ with
  | nil => rfl
  | cons p t ih =>
    simp only [List.cons_append, alookup]
    by_cases h : p.1 = k
    · rw [if_pos h, if_pos h, oor_some_left]
    · rw [if_neg h, if_neg h]; exact ih

theorem alookup_setdefaultL {α : Type} (l : List (String × α)) (k j : String) (v : α) :
    alookup (setdefaultL l k v) j =
      if j = k then oor (alookup l k) (some v) else alookup l j := by
  unfold setdefaultL
  cases h : alookup l k with
  | some w =>
    rw [if_pos (by simp [h])]
    by_cases hj : j = k
    · rw [if_pos hj, hj, h, oor_some_left]
    · rw [if_neg hj]
  | none =>
    rw [if_neg (by simp [h]), alookup_append]
    by_cases hj : j = k
    · subst hj
      rw [if_pos rfl, h, oor_none_left, oor_none_left]
      show (if j = j then some v else none) = some v
      rw [if_pos rfl]
    · rw [if_neg hj]
      have hone : alookup [(k, v)] j = none := by
        show (if k = j then some v else none) = none
        rw [if_neg (fun hh => hj hh.symm)]
      rw [hone, oor_none_right]

theorem alookup_insertL {α : Type} (l : List (String × α)) (k j : String) (v : α) :
    alookup (insertL l k v) j = if j = k then some v else alookup l j := by
  induction l with
  | nil =>
    show (if k = j then some v else none) = if j = k then some v else none
    by_cases hj : j = k
    · rw [if_pos hj.symm, if_pos hj]
    · rw [if_neg (fun hh => hj hh.symm), if_neg hj]
  | cons p t ih =>
    simp only [insertL]
    by_cases hp : p.1 = k
    · rw [if_pos hp]
      simp only [alookup]
      by_cases hj : j = k
      · rw [if_pos hj.symm, if_pos hj]
      · rw [if_neg (fun hh => hj hh.symm), if_neg hj, if_neg (fun hh => hj (hp.symm.trans hh).symm)]
    · rw [if_neg hp]
      simp only [alookup]
      by_cases hq : p.1 = j
      · have hjk : ¬j = k := fun hh => hp (hq.trans hh)
        rw [if_pos hq, if_neg hjk, if_pos hq]
      · rw [if_neg hq, ih, if_neg hq]

theorem alookup_eraseL {α : Type} (l : List (String × α)) (k j : String) :
    alookup (eraseL l k) j = if j = k then none else alookup l j := by
  induction l with
  | nil =>
    show (none : Option α) = if j = k then none else none
    by_cases hj : j = k
    · rw [if_pos hj]
    · rw [if_neg hj]
  | cons p t ih =>
    simp only [eraseL]
    by_cases hp : p.1 = k
    · rw [if_pos hp, ih]
      by_cases hj : j = k
      · rw [if_pos hj, if_pos hj]
      · rw [if_neg hj, if_neg hj]
        simp only [alookup]
        rw [if_neg (fun hh => hj (hp.symm.trans hh).symm)]
    · rw [if_neg hp]
      simp only [alookup]
      by_cases hq : p.1 = j
      · have hjk : ¬j = k := fun hh => hp (hq.trans hh)
        rw [if_pos hq, if_neg hjk, if_pos hq]
      · rw [if_neg hq, ih, if_neg hq]

/-- Folding `setdefault` over all bindings of a second list: lookups prefer the
accumulator and otherwise fall back to the first binding of the entry list. -/
def foldSetdefault {α : Type} (acc entries : List (String × α)) : List (String × α) :=
  entries.foldl (fun a p => setdefaultL a p.1 p.2) acc

theorem alookup_foldSetdefault {α : Type} (entries : List (String × α)) :
    ∀ (acc : List (String × α)) (k : String),
      alookup (foldSetdefault acc entries) k = oor (alookup acc k) (alookup entries k) := by
  induction entries with
  | nil =>
    intro acc k
    show alookup acc k = oor (alookup acc k) none
    rw [oor_none_right]
  | cons p t ih =>
    intro acc k
    show alookup (foldSetdefault (setdefaultL acc p.1 p.2) t) k = _
    rw [ih, alookup_setdefaultL]
    simp only [alookup]
    by_cases hk : k = p.1
    · subst hk
      rw [if_pos rfl, if_pos rfl, oor_assoc, oor_some_left]
    · rw [if_neg hk, if_neg (fun hh => hk hh.symm)]

/-
Text-Annotation Scanner (`VariableParser` in
src/VPLCodeGenerator/parser/source_code_parser/variable_parser.py).

The sphinx `Parser` that extracts comment docstrings and annotation texts from
the source text is an external collaborator; it is abstracted as a function
`scan` from source text and encoding to the two tables.  The parser object's
mutable state is modelled explicitly.
-/

structure ScanResult where
  anns : List ((String × String) × String)
  docs : List ((String × String) × String)

structure VPState where
  code : String
  encoding : String
  anns : List ((String × String) × String)
  docs : List ((String × String) × String)
  parsed : Bool

/-- Embedding of `VariableParser.parse`: a no-op when `_parsed` is already set,
otherwise it runs the sphinx scan and stores both tables. -/
def vpParse (scan : String → String → ScanResult) (s : VPState) : VPState :=
  if s.parsed then s
  else { s with
          parsed := true,
          anns := (scan s.code s.encoding).anns,
          docs := (scan s.code s.encoding).docs }

/-- Embedding of `VariableParser._value_in_ns`: restrict a `(namespace, name)`
keyed table to one namespace, keyed by name (`out[name] = value` is a dict
assignment). -/
def value_in_ns (d : List ((String × String) × String)) (ns : String) : List (String × String) :=
  d.foldl (fun out p => if p.1.1 = ns then insertL out p.1.2 p.2 else out) []

/-- Embedding of `VariableParser.annotations_in_ns` (it first calls `parse`). -/
def annotations_in_ns (scan : String → String → ScanResult) (s : VPState) (ns : String) :
    List (String × String) :=
  value_in_ns (vpParse scan s).anns ns

/-- Embedding of `VariableParser.docstring_in_ns` (it first calls `parse`). -/
def docstring_in_ns (scan : String → String → ScanResult) (s : VPState) (ns : String) :
    List (String × String) :=
  value_in_ns (vpParse scan s).docs ns

/-
Variable display strings (`Variable.default_value_str` / `Variable.annotation_str`
in src/VPLCodeGenerator/analyser.py, lines 689-710).

`repr` of an arbitrary default value and `formatannotation` are external to the
module and abstracted as functions; `repr` may raise, which is modelled by an
`Option` result.  The regular expression substitution
`re.sub(r" at 0x[0-9a-fA-F]+(?=>)", "", ...)` is implemented concretely: the
pattern has no alternatives and the greedy hex run cannot backtrack usefully
(`>` is not a hex digit), so a match is exactly `" at 0x"` followed by a
maximal nonempty hex-digit run whose successor character is `>`.
-/

def isHexDigit (c : Char) : Bool :=
  c.isDigit || (97 ≤ c.toNat && c.toNat ≤ 102) || (65 ≤ c.toNat && c.toNat ≤ 70)

/-- Leftmost-match step for the address pattern: when the list starts with a
full match `" at 0x" ++ hexdigits`, return the remainder starting at the
lookahead character `>`. -/
def addrMatch (l : List Char) : Option (List Char) :=
  match l with
  | c1 :: c2 :: c3 :: c4 :: c5 :: c6 :: rest =>
    if c1 = ' ' ∧ c2 = 'a' ∧ c3 = 't' ∧ c4 = ' ' ∧ c5 = '0' ∧ c6 = 'x' then
      if (rest.takeWhile isHexDigit) ≠ [] ∧ (rest.dropWhile isHexDigit).head? = some '>' then
        some (rest.dropWhile isHexDigit)
      else none
    else none
  | _ => none

theorem addrMatch_length {l r : List Char} (h : addrMatch l = some r) :
    r.length + 6 ≤ l.length := by
  unfold addrMatch at h
  match l with
  | [] => exact absurd h (by simp)
  | [c1] => exact absurd h (by simp)
  | [c1, c2] => exact absurd h (by simp)
  | [c1, c2, c3] => exact absurd h (by simp)
  | [c1, c2, c3, c4] => exact absurd h (by simp)
  | [c1, c2, c3, c4, c5] => exact absurd h (by simp)
  | c1 :: c2 :: c3 :: c4 :: c5 :: c6 :: rest =>
    simp only at h
    by_cases h1 : c1 = ' ' ∧ c2 = 'a' ∧ c3 = 't' ∧ c4 = ' ' ∧ c5 = '0' ∧ c6 = 'x'
    · rw [if_pos h1] at h
      by_cases h2 : (rest.takeWhile isHexDigit) ≠ [] ∧ (rest.dropWhile isHexDigit).head? = some '>'
      · rw [if_pos h2] at h
        have hr : r = rest.dropWhile isHexDigit := by
          injection h with h; exact h.symm
        subst hr
        have := (List.dropWhile_sublist (l := rest) (p := isHexDigit)).length_le
        simp only [List.length_cons]
        omega
      · rw [if_neg h2] at h; exact absurd h (by simp)
    · rw [if_neg h1] at h; exact absurd h (by simp)

/-- Scanner for the substitution: delete every (leftmost, non-overlapping)
match of the address pattern, keep every other character. -/
def subAddrAux : List Char → List Char
  | [] => []
  | c :: rest =>
    match h : addrMatch (c :: rest) with
    | some r => subAddrAux r
    | none => c :: subAddrAux rest
termination_by l => l.length
decreasing_by
  · have := addrMatch_length h
    simp only [List.length_cons] at *
    omega
  · simp

def subAddr (s : String) : String := String.mk (subAddrAux s.data)

/-- A Variable doc object as constructed in `Variable.__init__`: annotation and
default value may each be the `empty` sentinel (here `none`); other fields do
not participate in the display strings under scrutiny. -/
structure PyVariable where
  modulename : String
  qualname : String
  tf : String × String
  doc : String
  annot : Option Nat
  default_value : Option Nat

/-- Embedding of `Variable.default_value_str`: empty for the `empty` sentinel,
otherwise the address-stripped `" = " ++ repr(default)`, with the fixed
placeholder when `repr` raises. -/
def default_value_str (reprF : Nat → Option String) (v : PyVariable) : String :=
  match v.default_value with
  | none => ""
  | some d =>
    match reprF d with
    | some r => subAddr (" = " ++ r)
    | none => " = <unable to get value representation>"

/-- Embedding of `Variable.annotation_str`: empty for the `empty` sentinel,
otherwise `": " ++ formatannotation(annotation)`. -/
def annotation_str (fmtF : Nat → String) (v : PyVariable) : String :=
  match v.annot with
  | none => ""
  | some a => ": " ++ fmtF a

theorem string_append_data (s t : String) : (s ++ t).data = s.data ++ t.data := rfl

theorem addrMatch_cons_ne (c1 c2 : Char) (h : ¬c2 = 'a') (cs : List Char) :
    addrMatch (c1 :: c2 :: cs) = none := by
  rcases cs with _ | ⟨c3, _ | ⟨c4, _ | ⟨c5, _ | ⟨c6, rest⟩⟩⟩⟩
  · rfl
  · rfl
  · rfl
  · rfl
  · exact if_neg (fun hh => h hh.2.1)

theorem subAddrAux_cons_of_none {c : Char} {rest : List Char}
    (h : addrMatch (c :: rest) = none) :
    subAddrAux (c :: rest) = c :: subAddrAux rest := by
  rw [subAddrAux]
  split
  · rename_i r heq
    rw [h] at heq
    exact absurd heq (by simp)
  · rfl

theorem subAddrAux_space_eq (cs : List Char) :
    subAddrAux (' ' :: '=' :: cs) = ' ' :: subAddrAux ('=' :: cs) :=
  subAddrAux_cons_of_none (addrMatch_cons_ne ' ' '=' (by decide) cs)

/-- C7: the Scanner's `parse` is idempotent — a second call is a no-op, and the
per-namespace annotation and docstring views agree with those after one call. -/
theorem C7_parse_idempotent (scan : String → String → ScanResult) (s : VPState) (ns : String) :
    vpParse scan (vpParse scan s) = vpParse scan s ∧
    annotations_in_ns scan (vpParse scan s) ns = annotations_in_ns scan s ns ∧
    docstring_in_ns scan (vpParse scan s) ns = docstring_in_ns scan s ns := by
  have hidem : vpParse scan (vpParse scan s) = vpParse scan s := by
    by_cases h : s.parsed
    · have h1 : vpParse scan s = s := by unfold vpParse; rw [if_pos h]
      rw [h1, h1]
    · have h1 : vpParse scan s =
          { s with
            parsed := true,
            anns := (scan s.code s.encoding).anns,
            docs := (scan s.code s.encoding).docs } := by
        unfold vpParse; rw [if_neg h]
      rw [h1]
      unfold vpParse
      rw [if_pos rfl]
  refine ⟨hidem, ?_, ?_⟩
  · unfold annotations_in_ns
    rw [hidem]
  · unfold docstring_in_ns
    rw [hidem]

/-- C8: a Variable with an annotation and no default renders an empty default
string and the annotation prefixed by a colon; a Variable with a default and no
annotation renders an empty annotation string and a nonempty default string,
namely the address-stripped `" = " ++ repr(default)` whenever `repr` succeeds. -/
theorem C8_variable_display (fmtF : Nat → String) (reprF : Nat → Option String) (v : PyVariable) :
    (∀ X, v.annot = some X → v.default_value = none →
      default_value_str reprF v = "" ∧ annotation_str fmtF v = ": " ++ fmtF X) ∧
    (∀ d, v.annot = none → v.default_value = some d →
      annotation_str fmtF v = "" ∧ default_value_str reprF v ≠ "" ∧
      ∀ r, reprF d = some r → default_value_str reprF v = subAddr (" = " ++ r)) := by
  have dvs_eval : ∀ d, v.default_value = some d →
      default_value_str reprF v =
        match reprF d with
        | some r => subAddr (" = " ++ r)
        | none => " = <unable to get value representation>" := by
    intro d h1
    unfold default_value_str
    rw [h1]
  constructor
  · intro X hX hD
    constructor
    · unfold default_value_str
      rw [hD]
    · unfold annotation_str
      rw [hX]
  · intro d hX hD
    have hA : annotation_str fmtF v = "" := by
      unfold annotation_str
      rw [hX]
    refine ⟨hA, ?_, ?_⟩
    · rw [dvs_eval d hD]
      cases hr : reprF d with
      | none =>
        simp only [hr]
        decide
      | some r =>
        simp only [hr]
        intro hcontra
        have hdata : subAddrAux ((" = " ++ r).data) = [] := by
          have : (subAddr (" = " ++ r)).data = ("" : String).data := by rw [hcontra]
          exact this
        have hlist : (" = " ++ r).data = ' ' :: '=' :: ' ' :: r.data := rfl
        rw [hlist, subAddrAux_space_eq] at hdata
        exact absurd hdata (by simp)
    · intro r hr
      rw [dvs_eval d hD]
      simp only [hr]

/-- Witness for C8 at a concrete Variable with an annotation and no default,
and at one with a default and no annotation. -/
theorem C8_variable_display_witness :
    (default_value_str (fun _ => some "3") ⟨"m", "q", ("m", "q"), "", some 5, none⟩ = "" ∧
      annotation_str (fun _ => "int") ⟨"m", "q", ("m", "q"), "", some 5, none⟩ =
        ": " ++ (fun _ : Nat => "int") 5) ∧
    (annotation_str (fun _ => "int") ⟨"m", "q", ("m", "q"), "", none, some 3⟩ = "" ∧
      default_value_str (fun _ => some "3") ⟨"m", "q", ("m", "q"), "", none, some 3⟩ ≠ "" ∧
      ∀ r, (fun _ : Nat => some "3") 3 = some r →
        default_value_str (fun _ => some "3") ⟨"m", "q", ("m", "q"), "", none, some 3⟩ =
          subAddr (" = " ++ r)) := by
  constructor
  · exact (C8_variable_display (fun _ => "int") (fun _ => some "3")
      ⟨"m", "q", ("m", "q"), "", some 5, none⟩).1 5 rfl rfl
  · exact (C8_variable_display (fun _ => "int") (fun _ => some "3")
      ⟨"m", "q", ("m", "q"), "", none, some 3⟩).2 3 rfl rfl

/-
Doc object equality (src/VPLCodeGenerator/analyser.py).

`Namespace.__eq__` (shared by Module and Class, lines 168-170) compares the
concrete type, modulename, qualname, obj, taken_from and the parser;
`Function.__eq__` (485-488) compares type, modulename, qualname, the wrapped
form and taken_from; `Variable.__eq__` (668-671) compares type, modulename,
qualname, taken_from and the default value.  Underlying Python objects and
parsers are modelled by numeric identities; a Function's wrapper is a wrapper
form tag together with the wrapped callable's identity.
-/

inductive FForm where
  | plain
  | clsm
  | statm
deriving DecidableEq

structure WrappedF where
  form : FForm
  oid : Nat
deriving DecidableEq

inductive PyDoc where
  | mod (modulename qualname : String) (oid : Nat) (tf : String × String) (prs : Option Nat)
  | cls (modulename qualname : String) (oid : Nat) (tf : String × String) (prs : Option Nat)
  | func (modulename qualname : String) (w : WrappedF) (tf : String × String)
  | varb (modulename qualname : String) (tf : String × String) (doc : String)
      (ann : Option Nat) (dv : Option Nat) (isConst : Bool)
deriving DecidableEq

/-- Equality as the source implements it, dispatching on the concrete kind the
way Python dispatches `__eq__` (a mismatched kind compares unequal). -/
def pyEq : PyDoc → PyDoc → Bool
  | .mod m q o tf p, .mod m2 q2 o2 tf2 p2 =>
    m == m2 && q == q2 && o == o2 && tf == tf2 && p == p2
  | .cls m q o tf p, .cls m2 q2 o2 tf2 p2 =>
    m == m2 && q == q2 && o == o2 && tf == tf2 && p == p2
  | .func m q w tf, .func m2 q2 w2 tf2 =>
    m == m2 && q == q2 && w == w2 && tf == tf2
  | .varb m q tf _ _ dv _, .varb m2 q2 tf2 _ _ dv2 _ =>
    m == m2 && q == q2 && tf == tf2 && dv == dv2
  | _, _ => false

/-- Equality as the specification sentence words it: same concrete kind,
modulename, qualname, underlying object identity (the wrapped form for
Function; a Variable's underlying object is always the none value, so any two
Variables agree there) and taken_from, with no other field participating. -/
def specEq : PyDoc → PyDoc → Bool
  | .mod m q o tf _, .mod m2 q2 o2 tf2 _ =>
    m == m2 && q == q2 && o == o2 && tf == tf2
  | .cls m q o tf _, .cls m2 q2 o2 tf2 _ =>
    m == m2 && q == q2 && o == o2 && tf == tf2
  | .func m q w tf, .func m2 q2 w2 tf2 =>
    m == m2 && q == q2 && w == w2 && tf == tf2
  | .varb m q tf _ _ _ _, .varb m2 q2 tf2 _ _ _ _ =>
    m == m2 && q == q2 && tf == tf2
  | _, _ => false

/-- C6 counterexample: two Variables agreeing in kind, modulename, qualname,
underlying object identity and taken_from but with different default values
satisfy the claimed equality condition, yet the implemented equality denies
them — so equality does depend on a field beyond those the claim lists. -/
theorem C6_eq_fields_cex :
    specEq (PyDoc.varb "m" "q" ("m", "q") "" none (some 1) true)
        (PyDoc.varb "m" "q" ("m", "q") "" none (some 2) true) = true ∧
    pyEq (PyDoc.varb "m" "q" ("m", "q") "" none (some 1) true)
        (PyDoc.varb "m" "q" ("m", "q") "" none (some 2) true) = false := by
  constructor
  · decide
  · decide

/-- C6 amended: two Doc instances are equal iff they have the same concrete
kind, modulename, qualname, underlying object identity (wrapped identity for
Function) and taken_from, and additionally the same parser in the Module and
Class cases and the same default value in the Variable case; docstring,
annotation and the const flag still never participate. -/
theorem C6_eq_fields_amended (a b : PyDoc) :
    pyEq a b = true ↔
      specEq a b = true ∧
        (match a, b with
          | .mod _ _ _ _ p, .mod _ _ _ _ p2 => p = p2
          | .cls _ _ _ _ p, .cls _ _ _ _ p2 => p = p2
          | .func _ _ _ _, .func _ _ _ _ => True
          | .varb _ _ _ _ _ dv _, .varb _ _ _ _ _ dv2 _ => dv = dv2
          | _, _ => False) := by
  cases a <;> cases b <;>
    simp [pyEq, specEq, Bool.and_eq_true, beq_iff_eq]

/-
Member views by origin (src/VPLCodeGenerator/analyser.py, lines 199-217 and
381-388).

`Namespace._members_by_origin` groups the values of `members` by the parent
location of their `taken_from`; `Class.own_members` takes the group at the
class's own `(modulename, qualname)` plus, when different, the group at its
`taken_from`; `Namespace.inherited_members` keeps every other group.
-/

/-- Embedding of the parent-qualname computation
`".".join(qualname.rsplit(".", maxsplit=1)[:-1])`: everything before the last
dot, or the empty string when there is no dot. -/
def parentQual (q : String) : String :=
  String.intercalate "." ((q.splitOn ".").dropLast)

structure MemberRec where
  oid : Nat
  taken_mod : String
  taken_qual : String
deriving DecidableEq

/-- The `(modulename, parent qualname)` grouping key of a member. -/
def groupKey (m : MemberRec) : String × String :=
  (m.taken_mod, parentQual m.taken_qual)

structure NsInput where
  modulename : String
  qualname : String
  tf : String × String
  members : List MemberRec
deriving DecidableEq

/-- One group of `Namespace._members_by_origin`: the members whose taken_from
parent location is the given key (grouping preserves member order). -/
def membersByOrigin (ns : NsInput) (k : String × String) : List MemberRec :=
  ns.members.filter (fun m => groupKey m = k)

/-- Embedding of `Class.own_members`: the group at the class's own location,
extended by the group at `taken_from` when that differs (re-export case). -/
def own_members (ns : NsInput) : List MemberRec :=
  membersByOrigin ns (ns.modulename, ns.qualname) ++
    (if ns.tf ≠ (ns.modulename, ns.qualname) then membersByOrigin ns ns.tf else [])

/-- The distinct grouping keys of `_members_by_origin` that survive the
`inherited_members` filter (neither `taken_from` nor the own location). -/
def inheritedKeys (ns : NsInput) : List (String × String) :=
  ((ns.members.map groupKey).dedup).filter
    (fun k => k ≠ ns.tf ∧ k ≠ (ns.modulename, ns.qualname))

/-- Embedding of `Namespace.inherited_members` as a keyed family of groups. -/
def inherited_members (ns : NsInput) : List ((String × String) × List MemberRec) :=
  (inheritedKeys ns).map (fun k => (k, membersByOrigin ns k))

/-- All members appearing in some inherited group. -/
def inheritedJoin (ns : NsInput) : List MemberRec :=
  ((inherited_members ns).map (fun kv => kv.2)).flatten

theorem mem_membersByOrigin {ns : NsInput} {k : String × String} {m : MemberRec} :
    m ∈ membersByOrigin ns k ↔ m ∈ ns.members ∧ groupKey m = k := by
  unfold membersByOrigin
  rw [List.mem_filter]
  simp

theorem mem_inheritedJoin {ns : NsInput} {m : MemberRec} :
    m ∈ inheritedJoin ns ↔
      m ∈ ns.members ∧ groupKey m ≠ ns.tf ∧ groupKey m ≠ (ns.modulename, ns.qualname) := by
  unfold inheritedJoin inherited_members
  rw [List.mem_flatten]
  constructor
  · rintro ⟨l, hl, hm⟩
    rw [List.mem_map] at hl
    obtain ⟨kv, hkv, rfl⟩ := hl
    rw [List.mem_map] at hkv
    obtain ⟨k, hk, rfl⟩ := hkv
    unfold inheritedKeys at hk
    rw [List.mem_filter] at hk
    rw [mem_membersByOrigin] at hm
    refine ⟨hm.1, ?_, ?_⟩
    · rw [hm.2]
      exact (of_decide_eq_true hk.2).1
    · rw [hm.2]
      exact (of_decide_eq_true hk.2).2
  · rintro ⟨hmem, h1, h2⟩
    refine ⟨membersByOrigin ns (groupKey m), ?_, ?_⟩
    · rw [List.mem_map]
      refine ⟨(groupKey m, membersByOrigin ns (groupKey m)), ?_, rfl⟩
      rw [List.mem_map]
      refine ⟨groupKey m, ?_, rfl⟩
      unfold inheritedKeys
      rw [List.mem_filter]
      constructor
      · rw [List.mem_dedup, List.mem_map]
        exact ⟨m, hmem, rfl⟩
      · exact decide_eq_true ⟨h1, h2⟩
    · rw [mem_membersByOrigin]
      exact ⟨hmem, rfl⟩

theorem mem_own_members {ns : NsInput} {m : MemberRec} :
    m ∈ own_members ns ↔
      m ∈ ns.members ∧
        (groupKey m = (ns.modulename, ns.qualname) ∨ groupKey m = ns.tf) := by
  unfold own_members
  rw [List.mem_append]
  by_cases htf : ns.tf = (ns.modulename, ns.qualname)
  · rw [if_neg (by simp [htf])]
    rw [mem_membersByOrigin]
    simp [htf]
  · rw [if_pos (by simp [htf])]
    rw [mem_membersByOrigin, mem_membersByOrigin]
    constructor
    · rintro (⟨h1, h2⟩ | ⟨h1, h2⟩)
      · exact ⟨h1, Or.inl h2⟩
      · exact ⟨h1, Or.inr h2⟩
    · rintro ⟨h1, h2 | h2⟩
      · exact Or.inl ⟨h1, h2⟩
      · exact Or.inr ⟨h1, h2⟩

/-- C2: own members and the union of the inherited groups partition the values
of `members` — every member is in exactly one of the two views, each view draws
only from `members`, and a member is own precisely when its taken_from parent
location is the class's own location or its taken_from location. -/
theorem C2_partition (ns : NsInput) (m : MemberRec) (h : m ∈ ns.members) :
    ((m ∈ own_members ns ∧ m ∉ inheritedJoin ns) ∨
      (m ∉ own_members ns ∧ m ∈ inheritedJoin ns)) ∧
    (∀ x : MemberRec, x ∈ own_members ns → x ∈ ns.members) ∧
    (∀ x : MemberRec, x ∈ inheritedJoin ns → x ∈ ns.members) := by
  refine ⟨?_, fun x hx => (mem_own_members.mp hx).1, fun x hx => (mem_inheritedJoin.mp hx).1⟩
  by_cases hk : groupKey m = (ns.modulename, ns.qualname) ∨ groupKey m = ns.tf
  · left
    constructor
    · exact mem_own_members.mpr ⟨h, hk⟩
    · intro hj
      rcases mem_inheritedJoin.mp hj with ⟨-, h1, h2⟩
      rcases hk with hk | hk
      · exact h2 hk
      · exact h1 hk
  · right
    push_neg at hk
    constructor
    · intro ho
      rcases (mem_own_members.mp ho).2 with hc | hc
      · exact hk.1 hc
      · exact hk.2 hc
    · exact mem_inheritedJoin.mpr ⟨h, hk.2, hk.1⟩

/-- Witness for C2 at a concrete class with one own, one re-exported and one
inherited member. -/
theorem C2_partition_witness :
    (⟨1, "pkg", "B.x"⟩ : MemberRec) ∈
        (⟨"pkg", "B", ("pkg", "B"), [⟨1, "pkg", "B.x"⟩, ⟨2, "pkg", "A.y"⟩]⟩ : NsInput).members ∧
    ((⟨1, "pkg", "B.x"⟩ : MemberRec) ∈
          own_members ⟨"pkg", "B", ("pkg", "B"), [⟨1, "pkg", "B.x"⟩, ⟨2, "pkg", "A.y"⟩]⟩ ∧
        (⟨1, "pkg", "B.x"⟩ : MemberRec) ∉
          inheritedJoin ⟨"pkg", "B", ("pkg", "B"), [⟨1, "pkg", "B.x"⟩, ⟨2, "pkg", "A.y"⟩]⟩ ∨
      (⟨1, "pkg", "B.x"⟩ : MemberRec) ∉
          own_members ⟨"pkg", "B", ("pkg", "B"), [⟨1, "pkg", "B.x"⟩, ⟨2, "pkg", "A.y"⟩]⟩ ∧
        (⟨1, "pkg", "B.x"⟩ : MemberRec) ∈
          inheritedJoin ⟨"pkg", "B", ("pkg", "B"), [⟨1, "pkg", "B.x"⟩, ⟨2, "pkg", "A.y"⟩]⟩) := by
  refine ⟨by decide, ?_⟩
  exact (C2_partition ⟨"pkg", "B", ("pkg", "B"), [⟨1, "pkg", "B.x"⟩, ⟨2, "pkg", "A.y"⟩]⟩
    ⟨1, "pkg", "B.x"⟩ (by decide)).1

/-
Identifier resolution (`Namespace.get`, src/VPLCodeGenerator/analyser.py,
lines 233-243): `identifier.partition(".")` splits at the first dot; when a
tail remains, resolution proceeds only through a member that is a Class,
otherwise the lookup answers the absent value.
-/

inductive DKind where
  | module
  | cls
  | func
  | varb
deriving DecidableEq

inductive DocNode where
  | mk (kind : DKind) (children : List (String × DocNode))

def DocNode.kind : DocNode → DKind
  | .mk k _ => k

def DocNode.children : DocNode → List (String × DocNode)
  | .mk _ c => c

/-- Split a character list at the first dot: the part before it and the part
after it, or nothing when there is no dot (the head/sep/tail of Python's
`str.partition`). -/
def splitFirstDot : List Char → Option (List Char × List Char)
  | [] => none
  | c :: rest =>
    if c = '.' then some ([], rest)
    else
      match splitFirstDot rest with
      | some p => some (c :: p.1, p.2)
      | none => none

theorem splitFirstDot_length :
    ∀ (l : List Char) (p : List Char × List Char),
      splitFirstDot l = some p → p.2.length < l.length := by
  intro l
  induction l with
  | nil => intro p h; exact absurd h (by simp [splitFirstDot])
  | cons c rest ih =>
    intro p h
    unfold splitFirstDot at h
    by_cases hc : c = '.'
    · rw [if_pos hc] at h
      injection h with h
      rw [← h]
      simp
    · rw [if_neg hc] at h
      cases hrec : splitFirstDot rest with
      | some q =>
        rw [hrec] at h
        injection h with h
        rw [← h]
        exact Nat.lt_trans (ih q hrec) (by simp)
      | none => rw [hrec] at h; exact absurd h (by simp)

/-- Embedding of `Namespace.get`: on a dotted identifier, look up the head and
descend only when the result is a Class; otherwise (including when the member
exists but is a Module, Function or Variable) answer `none`; a dot-free
identifier is a plain lookup. -/
def docGet (d : DocNode) (ident : String) : Option DocNode :=
  match hsd : splitFirstDot ident.data with
  | some (h, t) =>
    if t ≠ [] then
      match alookup d.children (String.mk h) with
      | some hd => if hd.kind = DKind.cls then docGet hd (String.mk t) else none
      | none => none
    else alookup d.children ident
  | none => alookup d.children ident
termination_by ident.data.length
decreasing_by
  exact splitFirstDot_length ident.data (h, t) hsd

theorem docGet_dotted {d : DocNode} {ident : String} {h t : List Char}
    (hs : splitFirstDot ident.data = some (h, t)) (ht : t ≠ []) :
    docGet d ident =
      match alookup d.children (String.mk h) with
      | some hd => if hd.kind = DKind.cls then docGet hd (String.mk t) else none
      | none => none := by
  conv_lhs => unfold docGet
  split
  · rename_i h2 t2 heq
    rw [hs] at heq
    simp only [Option.some.injEq, Prod.mk.injEq] at heq
    obtain ⟨rfl, rfl⟩ := heq
    rw [if_pos ht]
  · rename_i heq
    rw [hs] at heq
    exact absurd heq (by simp)

theorem docGet_plain {d : DocNode} {ident : String}
    (hs : splitFirstDot ident.data = none) :
    docGet d ident = alookup d.children ident := by
  conv_lhs => unfold docGet
  split
  · rename_i h2 t2 heq
    rw [hs] at heq
    exact absurd heq (by simp)
  · rfl

/-- C10: `get` resolves dotted identifiers only through Class members — when
the head names an existing member that is not a Class the result is `none`
whatever that member contains — and a dot-free identifier resolves to exactly
the member of that name (or `none`). -/
theorem C10_get_class_only (d : DocNode) (ident : String) :
    (∀ h t hd, splitFirstDot ident.data = some (h, t) → t ≠ [] →
      alookup d.children (String.mk h) = some hd → hd.kind ≠ DKind.cls →
      docGet d ident = none) ∧
    (splitFirstDot ident.data = none → docGet d ident = alookup d.children ident) := by
  constructor
  · intro h t hd hs ht hl hk
    rw [docGet_dotted hs ht, hl]
    show (if hd.kind = DKind.cls then docGet hd (String.mk t) else none) = none
    rw [if_neg hk]
  · intro hs
    exact docGet_plain hs

/-- Witness for C10: a nested Module member `sub` holding `x` exists, yet
`get "sub.x"` answers `none` because `sub` is not a Class; the dot-free lookup
equation holds for `"sub"` on the same tree. -/
theorem C10_get_class_only_witness :
    docGet (DocNode.mk DKind.module
        [("sub", DocNode.mk DKind.module [("x", DocNode.mk DKind.varb [])])]) "sub.x" = none ∧
    docGet (DocNode.mk DKind.module
        [("sub", DocNode.mk DKind.module [("x", DocNode.mk DKind.varb [])])]) "sub" =
      alookup (DocNode.mk DKind.module
        [("sub", DocNode.mk DKind.module [("x", DocNode.mk DKind.varb [])])]).children "sub" := by
  constructor
  · exact (C10_get_class_only (DocNode.mk DKind.module
        [("sub", DocNode.mk DKind.module [("x", DocNode.mk DKind.varb [])])]) "sub.x").1
      ['s', 'u', 'b'] ['x'] (DocNode.mk DKind.module [("x", DocNode.mk DKind.varb [])])
      rfl (by simp) rfl (by simp [DocNode.kind])
  · exact (C10_get_class_only (DocNode.mk DKind.module
        [("sub", DocNode.mk DKind.module [("x", DocNode.mk DKind.varb [])])]) "sub").2 rfl

/-
Parser suite lookup (src/VPLCodeGenerator/parser/parser.py).

`ParserSuit.__getitem__` (lines 29-33) answers `parser_types[item]` and falls
back to `parser_types['default']` on any lookup failure;
`ParserSuitsRegistry.__getitem__` (lines 13-16) raises an exception naming the
queried suite name when it is not registered.  The registry built by
`ParserSuitsRegistry.__init__` from the `ParserSuit` subclasses maps
`'SourceCode'` to `SourceCodeParserSuit` and `'reST'` to `ReSTParserSuit`;
their `parser_types` tables are those of `SourceCodeParserSuit.__init__` and
`ReSTParserSuit.__init__`.
-/

inductive ParserClass where
  | srcModule
  | srcClass
  | reSTCls
deriving DecidableEq

inductive SuitClass where
  | sourceCodeSuit
  | reSTSuit
deriving DecidableEq

def sourceCodeSuitTypes : List (String × ParserClass) :=
  [("default", ParserClass.srcModule), ("module", ParserClass.srcModule),
    ("class", ParserClass.srcClass)]

def reSTSuitTypes : List (String × ParserClass) :=
  [("default", ParserClass.reSTCls)]

/-- Embedding of `ParserSuit.__getitem__`: a failed lookup falls back to the
`'default'` entry. -/
def suitGetItem (pt : List (String × ParserClass)) (k : String) : Option ParserClass :=
  match alookup pt k with
  | some v => some v
  | none => alookup pt "default"

def registrySuits : List (String × SuitClass) :=
  [("SourceCode", SuitClass.sourceCodeSuit), ("reST", SuitClass.reSTSuit)]

/-- Embedding of `ParserSuitsRegistry.__getitem__`: a registered name answers
its suite class, any other name raises an exception whose message names it. -/
def registryGetItem (name : String) : Except String SuitClass :=
  match alookup registrySuits name with
  | some v => Except.ok v
  | none => Except.error (name ++ " do not support.")

/-- C9: indexing a suite never fails — an unknown member-kind key answers the
suite's `'default'` parser type for both registered suites — while indexing
the registry with an unregistered suite name produces the error naming it. -/
theorem C9_suite_lookup_total (k : String) :
    (suitGetItem sourceCodeSuitTypes k).isSome ∧
    (suitGetItem reSTSuitTypes k).isSome ∧
    (k ≠ "default" → k ≠ "module" → k ≠ "class" →
      suitGetItem sourceCodeSuitTypes k = some ParserClass.srcModule) ∧
    (k ≠ "default" → suitGetItem reSTSuitTypes k = some ParserClass.reSTCls) ∧
    (k ≠ "SourceCode" → k ≠ "reST" →
      registryGetItem k = Except.error (k ++ " do not support.")) := by
  have hsrc : ∀ j, alookup sourceCodeSuitTypes j =
      if "default" = j then some ParserClass.srcModule
      else if "module" = j then some ParserClass.srcModule
      else if "class" = j then some ParserClass.srcClass
      else none := by
    intro j
    rfl
  have hre : ∀ j, alookup reSTSuitTypes j =
      if "default" = j then some ParserClass.reSTCls else none := by
    intro j
    rfl
  have hreg : ∀ j, alookup registrySuits j =
      if "SourceCode" = j then some SuitClass.sourceCodeSuit
      else if "reST" = j then some SuitClass.reSTSuit
      else none := by
    intro j
    rfl
  refine ⟨?_, ?_, ?_, ?_, ?_⟩
  · unfold suitGetItem
    rw [hsrc k, hsrc "default"]
    by_cases h1 : "default" = k
    · rw [if_pos h1]; rfl
    · rw [if_neg h1]
      by_cases h2 : "module" = k
      · rw [if_pos h2]; rfl
      · rw [if_neg h2]
        by_cases h3 : "class" = k
        · rw [if_pos h3]; rfl
        · rw [if_neg h3]
          simp
  · unfold suitGetItem
    rw [hre k, hre "default"]
    by_cases h1 : "default" = k
    · rw [if_pos h1]; rfl
    · rw [if_neg h1]; simp
  · intro h1 h2 h3
    unfold suitGetItem
    rw [hsrc k, hsrc "default"]
    rw [if_neg (fun hh => h1 hh.symm), if_neg (fun hh => h2 hh.symm),
      if_neg (fun hh => h3 hh.symm)]
    simp
  · intro h1
    unfold suitGetItem
    rw [hre k, hre "default"]
    rw [if_neg (fun hh => h1 hh.symm)]
    simp
  · intro h1 h2
    unfold registryGetItem
    rw [hreg k, if_neg (fun hh => h1 hh.symm), if_neg (fun hh => h2 hh.symm)]

/-- Witness for C9 at the unregistered key `"variable"` and suite name
`"JSON"`. -/
theorem C9_suite_lookup_total_witness :
    (suitGetItem sourceCodeSuitTypes "variable").isSome ∧
    suitGetItem sourceCodeSuitTypes "variable" = some ParserClass.srcModule ∧
    suitGetItem reSTSuitTypes "variable" = some ParserClass.reSTCls ∧
    registryGetItem "JSON" = Except.error ("JSON" ++ " do not support.") := by
  have h1 := C9_suite_lookup_total "variable"
  have h2 := C9_suite_lookup_total "JSON"
  exact ⟨h1.1, h1.2.2.1 (by decide) (by decide) (by decide),
    h1.2.2.2.1 (by decide), h2.2.2.2.2 (by decide) (by decide)⟩

/-
Live-object class member resolution (`SourceCodeClassParser.member_objects`
and `SourceCodeClassParser._taken_from`,
src/VPLCodeGenerator/parser/source_code_parser/source_code_parser.py,
lines 336-414).

A class is presented to the resolver as its method-resolution order: a list of
namespace snapshots (module, qualname, `__dict__` as an association list),
most-derived first, with the universal base `object` left out because the walk
skips it.  Python values are modelled by an identity plus their `__doc__`
attribute; strings, `None` and the "no value" sentinel `empty` are kept apart
because the resolver branches on them.  `getattr(self.obj, a)` for the five
forced identity attributes, `self.obj[name]` subscription (whose failure is
`none`) and the introspection flags are inputs; `inspect.cleandoc` is an
external function.  The `_definitions` table already holds whatever the
constructor's inheritance-chain walk seeded (`defs0`).
-/

inductive PyVal where
  | obj (oid : Nat) (doc : Option String)
  | str (s : String)
  | pynone
  | empty
deriving DecidableEq

structure ClsNode where
  module : String
  qualname : String
  dict : List (String × PyVal)
deriving DecidableEq

structure PyEnv where
  objectInitDoc : String
  objectCallDoc : String
  objectNewDoc : String
  objectInit : PyVal
  strClassDoc : String
  noneTypeDoc : String
  emptyClassDoc : String
  cleandoc : String → String

/-- The `__doc__` attribute of a modelled value (every Python object has one;
for the class-like sentinels it is the respective class docstring). -/
def valDoc (env : PyEnv) : PyVal → Option String
  | .obj _ d => d
  | .str _ => some env.strClassDoc
  | .pynone => some env.noneTypeDoc
  | .empty => some env.emptyClassDoc

structure ClassInput where
  module : String
  qualname : String
  mro : List ClsNode
  attrV : String → PyVal
  varNames : List String
  subscr : String → Option PyVal
  defs0 : List (String × (String × String))
  isAbstract : Bool
  isEnumSub : Bool
  isDictSub : Bool
  metaCall : Option (PyVal × Bool)
  clsNew : Option (PyVal × Bool)

/-- The five identity attributes forcibly taken from the current class. -/
def forcedAttrs : List String :=
  ["__init__", "__doc__", "__annotations__", "__dict__", "__module__"]

/-- The `(modulename, qualname.name)` declaration site recorded for a name
seen in a class's namespace dictionary. -/
def siteOf (cls : ClsNode) (n : String) : String × String :=
  (cls.module, cls.qualname ++ "." ++ n)

/-- The MRO walk of `member_objects`: per ancestor namespace dictionary,
`members.setdefault(name, obj)` and the unconditional
`_definitions[name] = (cls.__module__, cls.__qualname__ + "." + name)`. -/
def mroWalk (mro : List ClsNode)
    (start : List (String × PyVal) × List (String × (String × String))) :
    List (String × PyVal) × List (String × (String × String)) :=
  mro.foldl
    (fun acc cls =>
      cls.dict.foldl
        (fun a p => (setdefaultL a.1 p.1 p.2, insertL a.2 p.1 (siteOf cls p.1))) acc)
    start

/-- The forced-attribute pass: `members[attr] = getattr(self.obj, attr)` and
`_definitions[attr] = (self module, self qualname + "." + attr)`. -/
def forcedPass (c : ClassInput)
    (start : List (String × PyVal) × List (String × (String × String))) :
    List (String × PyVal) × List (String × (String × String)) :=
  forcedAttrs.foldl
    (fun acc a =>
      (insertL acc.1 a (c.attrV a), insertL acc.2 a (c.module, c.qualname ++ "." ++ a)))
    start

/-- The `__doc__` cleanup pass: a present, non-`None` docstring value is
replaced by its `cleandoc` (in CPython that value is a string whenever it is
not `None`). -/
def docPass (env : PyEnv) (m : List (String × PyVal)) : List (String × PyVal) :=
  match alookup m "__doc__" with
  | some (PyVal.str s) => insertL m "__doc__" (PyVal.str (env.cleandoc s))
  | _ => m

/-- The scanner-name pass: `members.setdefault(name, self.obj[name] or empty)`
for every name the variable scanner knows. -/
def varsPass (c : ClassInput) (m : List (String × PyVal)) : List (String × PyVal) :=
  c.varNames.foldl (fun acc n => setdefaultL acc n ((c.subscr n).getD PyVal.empty)) m

/-- The `__new__` arm of the constructor fixup. -/
def newFixup (env : PyEnv) (c : ClassInput) (m : List (String × PyVal)) :
    List (String × PyVal) :=
  match c.clsNew with
  | some (newv, nud) =>
    if !nud && !(valDoc env newv == none) && !(valDoc env newv == some env.objectNewDoc) then
      insertL m "__init__" newv
    else m
  | none => m

/-- The constructor suppression/substitution fixup of `member_objects`
(source lines 366-402). -/
def initFixup (env : PyEnv) (c : ClassInput) (m : List (String × PyVal)) :
    List (String × PyVal) :=
  if valDoc env ((alookup m "__init__").getD env.objectInit) = none ∨
      valDoc env ((alookup m "__init__").getD env.objectInit) = some env.objectInitDoc then
    if c.isAbstract then eraseL m "__init__"
    else if c.isEnumSub then eraseL m "__init__"
    else if c.isDictSub then eraseL m "__init__"
    else
      match c.metaCall with
      | some (callv, nud) =>
        if !nud && !(valDoc env callv == none) && !(valDoc env callv == some env.objectCallDoc) then
          insertL m "__init__" callv
        else newFixup env c m
      | none => newFixup env c m
  else m

/-- Embedding of `SourceCodeClassParser.member_objects`: the members mapping
and the `_definitions` provenance table it leaves behind (`_taken_from`
answers lookups in the latter). -/
def classMemberObjects (env : PyEnv) (c : ClassInput) :
    List (String × PyVal) × List (String × (String × String)) :=
  let s2 := forcedPass c (mroWalk c.mro ([], c.defs0))
  (initFixup env c (varsPass c (docPass env s2.1)), s2.2)

/-- The first (most-derived) MRO entry whose namespace dictionary binds a
name — the ancestor the specification calls the nearest declaring one. -/
def firstDecl : List ClsNode → String → Option ClsNode
  | [], _ => none
  | cls :: rest, n =>
    oor (if (alookup cls.dict n).isSome then some cls else none) (firstDecl rest n)

/-- The last MRO entry whose namespace dictionary binds a name — the farthest
declaring ancestor. -/
def lastDecl : List ClsNode → String → Option ClsNode
  | [], _ => none
  | cls :: rest, n =>
    oor (lastDecl rest n) (if (alookup cls.dict n).isSome then some cls else none)

theorem firstDecl_cons (cls : ClsNode) (rest : List ClsNode) (n : String) :
    firstDecl (cls :: rest) n =
      oor (if (alookup cls.dict n).isSome then some cls else none) (firstDecl rest n) := rfl

theorem lastDecl_cons (cls : ClsNode) (rest : List ClsNode) (n : String) :
    lastDecl (cls :: rest) n =
      oor (lastDecl rest n) (if (alookup cls.dict n).isSome then some cls else none) := rfl

theorem oor_map {α β : Type} (f : α → β) (a b : Option α) :
    (oor a b).map f = oor (a.map f) (b.map f) := by
  cases a <;> rfl

theorem map_ite_some {α β : Type} (f : α → β) (d : Prop) [Decidable d] (x : α) :
    (if d then some x else none).map f = if d then some (f x) else none := by
  by_cases h : d
  · rw [if_pos h, if_pos h]; rfl
  · rw [if_neg h, if_neg h]; rfl

theorem dictFold_lookup (cls : ClsNode) :
    ∀ (entries : List (String × PyVal))
      (acc : List (String × PyVal) × List (String × (String × String))) (n : String),
      alookup (entries.foldl
          (fun a p => (setdefaultL a.1 p.1 p.2, insertL a.2 p.1 (siteOf cls p.1))) acc).1 n =
        oor (alookup acc.1 n) (alookup entries n) ∧
      alookup (entries.foldl
          (fun a p => (setdefaultL a.1 p.1 p.2, insertL a.2 p.1 (siteOf cls p.1))) acc).2 n =
        oor (if (alookup entries n).isSome then some (siteOf cls n) else none)
          (alookup acc.2 n) := by
  intro entries
  induction entries with
  | nil =>
    intro acc n
    constructor
    · show alookup acc.1 n = oor (alookup acc.1 n) none
      rw [oor_none_right]
    · show alookup acc.2 n =
        oor (if (none : Option PyVal).isSome then some (siteOf cls n) else none) (alookup acc.2 n)
      rw [if_neg (by simp), oor_none_left]
  | cons p t ih =>
    intro acc n
    have step := ih (setdefaultL acc.1 p.1 p.2, insertL acc.2 p.1 (siteOf cls p.1)) n
    constructor
    · show alookup (t.foldl _ (setdefaultL acc.1 p.1 p.2, insertL acc.2 p.1 (siteOf cls p.1))).1 n = _
      rw [step.1]
      show oor (alookup (setdefaultL acc.1 p.1 p.2) n) (alookup t n) =
        oor (alookup acc.1 n) (alookup (p :: t) n)
      rw [alookup_setdefaultL]
      simp only [alookup]
      by_cases hn : n = p.1
      · rw [hn]
        have ha : (if p.1 = p.1 then oor (alookup acc.1 p.1) (some p.2) else alookup acc.1 p.1) =
            oor (alookup acc.1 p.1) (some p.2) := if_pos rfl
        have hb : (if p.1 = p.1 then some p.2 else alookup t p.1) = some p.2 := if_pos rfl
        rw [ha, hb, oor_assoc, oor_some_left]
      · rw [if_neg hn, if_neg (fun hh => hn hh.symm)]
    · show alookup (t.foldl _ (setdefaultL acc.1 p.1 p.2, insertL acc.2 p.1 (siteOf cls p.1))).2 n = _
      rw [step.2]
      show oor (if (alookup t n).isSome then some (siteOf cls n) else none)
          (alookup (insertL acc.2 p.1 (siteOf cls p.1)) n) =
        oor (if (alookup (p :: t) n).isSome then some (siteOf cls n) else none)
          (alookup acc.2 n)
      rw [alookup_insertL]
      simp only [alookup]
      by_cases hn : n = p.1
      · rw [hn]
        have hc : (if p.1 = p.1 then (some p.2 : Option PyVal) else alookup t p.1).isSome = true := by
          rw [if_pos rfl]; rfl
        rw [if_pos hc]
        have h3 : (if p.1 = p.1 then some (siteOf cls p.1) else alookup acc.2 p.1) =
            some (siteOf cls p.1) := if_pos rfl
        rw [h3]
        by_cases ht : (alookup t p.1).isSome
        · rw [if_pos ht, oor_some_left, oor_some_left]
        · rw [if_neg ht, oor_none_left, oor_some_left]
      · have hq : (if n = p.1 then some (siteOf cls p.1) else alookup acc.2 n) =
            alookup acc.2 n := if_neg hn
        rw [hq]
        have hpt : (if p.1 = n then (some p.2 : Option PyVal) else alookup t n) = alookup t n :=
          if_neg (fun hh => hn hh.symm)
        by_cases ht : (alookup t n).isSome
        · rw [if_pos ht, if_pos (show (if p.1 = n then (some p.2 : Option PyVal) else
            alookup t n).isSome = true by rw [hpt]; exact ht)]
        · rw [if_neg ht, if_neg (show ¬(if p.1 = n then (some p.2 : Option PyVal) else
            alookup t n).isSome = true by rw [hpt]; exact ht)]

theorem mroWalk_lookup (mro : List ClsNode) :
    ∀ (acc : List (String × PyVal) × List (String × (String × String))) (n : String),
      alookup (mroWalk mro acc).1 n =
        oor (alookup acc.1 n) ((firstDecl mro n).bind (fun cls => alookup cls.dict n)) ∧
      alookup (mroWalk mro acc).2 n =
        oor ((lastDecl mro n).map (fun cls => siteOf cls n)) (alookup acc.2 n) := by
  induction mro with
  | nil =>
    intro acc n
    constructor
    · show alookup acc.1 n = oor (alookup acc.1 n) none
      rw [oor_none_right]
    · show alookup acc.2 n = oor none (alookup acc.2 n)
      rw [oor_none_left]
  | cons cls rest ih =>
    intro acc n
    have hstep :
        mroWalk (cls :: rest) acc =
          mroWalk rest
            (cls.dict.foldl
              (fun a p => (setdefaultL a.1 p.1 p.2, insertL a.2 p.1 (siteOf cls p.1))) acc) := rfl
    have hin := dictFold_lookup cls cls.dict acc n
    have hout := ih
      (cls.dict.foldl
        (fun a p => (setdefaultL a.1 p.1 p.2, insertL a.2 p.1 (siteOf cls p.1))) acc) n
    constructor
    · rw [hstep, hout.1, hin.1, firstDecl_cons]
      cases hd : alookup cls.dict n with
      | some v =>
        have hds : ((some v : Option PyVal)).isSome = true := rfl
        rw [if_pos hds, oor_some_left, oor_assoc, oor_some_left]
        show oor (alookup acc.1 n) (some v) = oor (alookup acc.1 n) (alookup cls.dict n)
        rw [hd]
      | none =>
        have hds : ¬((none : Option PyVal)).isSome = true := by simp
        rw [if_neg hds, oor_none_left, oor_none_right]
    · rw [hstep, hout.2, hin.2, lastDecl_cons, oor_map, map_ite_some, oor_assoc]

theorem forcedPass_skip (c : ClassInput)
    (start : List (String × PyVal) × List (String × (String × String))) (n : String)
    (hn : ¬n ∈ forcedAttrs) :
    alookup (forcedPass c start).1 n = alookup start.1 n ∧
    alookup (forcedPass c start).2 n = alookup start.2 n := by
  simp only [forcedAttrs, List.mem_cons, List.not_mem_nil, or_false] at hn
  push_neg at hn
  obtain ⟨h1, h2, h3, h4, h5⟩ := hn
  constructor <;>
    simp [forcedPass, forcedAttrs, List.foldl, alookup_insertL, h1, h2, h3, h4, h5]

theorem forcedPass_init (c : ClassInput)
    (start : List (String × PyVal) × List (String × (String × String))) :
    alookup (forcedPass c start).1 "__init__" = some (c.attrV "__init__") := by
  simp [forcedPass, forcedAttrs, List.foldl, alookup_insertL]

theorem docPass_skip (env : PyEnv) (m : List (String × PyVal)) (n : String)
    (hn : ¬n = "__doc__") :
    alookup (docPass env m) n = alookup m n := by
  unfold docPass
  split
  · rw [alookup_insertL, if_neg hn]
  · rfl

theorem varsPass_preserve (sub : String → Option PyVal) :
    ∀ (names : List String) (m : List (String × PyVal)) (n : String) (v : PyVal),
      alookup m n = some v →
      alookup (names.foldl (fun acc j => setdefaultL acc j ((sub j).getD PyVal.empty)) m) n =
        some v := by
  intro names
  induction names with
  | nil => intro m n v h; exact h
  | cons a rest ih =>
    intro m n v h
    show alookup (rest.foldl _ (setdefaultL m a ((sub a).getD PyVal.empty))) n = some v
    apply ih
    rw [alookup_setdefaultL]
    by_cases hn : n = a
    · rw [if_pos hn, ← hn, h, oor_some_left]
    · rw [if_neg hn]; exact h

theorem newFixup_skip (env : PyEnv) (c : ClassInput) (m : List (String × PyVal)) (n : String)
    (hn : ¬n = "__init__") :
    alookup (newFixup env c m) n = alookup m n := by
  unfold newFixup
  split
  · split
    · rw [alookup_insertL, if_neg hn]
    · rfl
  · rfl

theorem initFixup_skip (env : PyEnv) (c : ClassInput) (m : List (String × PyVal)) (n : String)
    (hn : ¬n = "__init__") :
    alookup (initFixup env c m) n = alookup m n := by
  unfold initFixup
  split
  · split
    · rw [alookup_eraseL, if_neg hn]
    · split
      · rw [alookup_eraseL, if_neg hn]
      · split
        · rw [alookup_eraseL, if_neg hn]
        · split
          · split
            · rw [alookup_insertL, if_neg hn]
            · exact newFixup_skip env c m n hn
          · exact newFixup_skip env c m n hn
  · rfl

theorem firstDecl_isSome :
    ∀ (mro : List ClsNode) (n : String) (cF : ClsNode),
      firstDecl mro n = some cF → (alookup cF.dict n).isSome = true := by
  intro mro
  induction mro with
  | nil => intro n cF h; exact absurd h (by simp [firstDecl])
  | cons cls rest ih =>
    intro n cF h
    rw [firstDecl_cons] at h
    by_cases hd : (alookup cls.dict n).isSome = true
    · rw [if_pos hd, oor_some_left] at h
      injection h with h
      rw [← h]
      exact hd
    · rw [if_neg hd, oor_none_left] at h
      exact ih n cF h

/-- C1 amended: during the MRO walk the member *value* is indeed recorded on
first sight only, so the value of an inherited name comes from the nearest
declaring ancestor, but the provenance table `_definitions` is overwritten on
every sight, so for any name found in at least one MRO namespace dictionary
(other than the five forced identity attributes) `_taken_from` answers the
declaration site of the *farthest* declaring MRO entry — a nearer ancestor's
site is replaced, not kept. -/
theorem C1_taken_from_amended (env : PyEnv) (c : ClassInput) (n : String) (cF cL : ClsNode)
    (hn : ¬n ∈ forcedAttrs)
    (hF : firstDecl c.mro n = some cF) (hL : lastDecl c.mro n = some cL) :
    alookup (classMemberObjects env c).1 n = alookup cF.dict n ∧
    alookup (classMemberObjects env c).2 n = some (siteOf cL n) := by
  have hninit : ¬n = "__init__" := fun h => hn (by rw [h]; decide)
  have hndoc : ¬n = "__doc__" := fun h => hn (by rw [h]; decide)
  obtain ⟨v, hv⟩ : ∃ v, alookup cF.dict n = some v := by
    have hs := firstDecl_isSome c.mro n cF hF
    cases hvv : alookup cF.dict n with
    | none => rw [hvv] at hs; exact absurd hs (by simp)
    | some w => exact ⟨w, rfl⟩
  have hwalk := mroWalk_lookup c.mro ([], c.defs0) n
  have hw1 : alookup (mroWalk c.mro ([], c.defs0)).1 n = some v := by
    rw [hwalk.1, hF]
    show oor none (alookup cF.dict n) = some v
    rw [oor_none_left]
    exact hv
  have hw2 : alookup (mroWalk c.mro ([], c.defs0)).2 n = some (siteOf cL n) := by
    rw [hwalk.2, hL]
    show oor (some (siteOf cL n)) (alookup c.defs0 n) = some (siteOf cL n)
    rw [oor_some_left]
  have hforced := forcedPass_skip c (mroWalk c.mro ([], c.defs0)) n hn
  constructor
  · show alookup
      (initFixup env c (varsPass c (docPass env (forcedPass c (mroWalk c.mro ([], c.defs0))).1)))
      n = alookup cF.dict n
    rw [initFixup_skip env c _ n hninit, hv]
    apply varsPass_preserve
    rw [docPass_skip env _ n hndoc, hforced.1]
    exact hw1
  · show alookup (forcedPass c (mroWalk c.mro ([], c.defs0))).2 n = some (siteOf cL n)
    rw [hforced.2]
    exact hw2

/-- A fixed environment for the concrete evaluations: the docstrings CPython
attaches to `object.__init__`, `object.__call__`, `object.__new__` and to the
built-in classes are pairwise distinct nonempty strings, and `cleandoc` is the
identity on the strings involved. -/
def envC : PyEnv :=
  { objectInitDoc := "obj-init-doc"
    objectCallDoc := "obj-call-doc"
    objectNewDoc := "obj-new-doc"
    objectInit := PyVal.obj 0 (some "obj-init-doc")
    strClassDoc := "str-doc"
    noneTypeDoc := "none-doc"
    emptyClassDoc := "empty-doc"
    cleandoc := fun s => s }

/-- A three-class single-inheritance chain `C < B < A` in module `"M"` where
the method name `"m"` is declared in both `B.__dict__` and `A.__dict__` but
not in `C.__dict__`, so on `C` the member `"m"` is inherited and the nearest
declaring ancestor is `B`. -/
def nodeAcx : ClsNode := ⟨"M", "A", [("m", PyVal.obj 11 none)]⟩

def nodeBcx : ClsNode := ⟨"M", "B", [("m", PyVal.obj 10 none)]⟩

def nodeCcx : ClsNode := ⟨"M", "C", []⟩

def cexC1 : ClassInput :=
  { module := "M"
    qualname := "C"
    mro := [nodeCcx, nodeBcx, nodeAcx]
    attrV := fun _ => PyVal.obj 1 (some "custom init doc")
    varNames := []
    subscr := fun _ => none
    defs0 := []
    isAbstract := false
    isEnumSub := false
    isDictSub := false
    metaCall := none
    clsNew := none }

/-- C1 counterexample: on the chain `C < B < A` with `"m"` declared in `B` and
`A`, the member `"m"` is inherited (absent from `C`'s own dictionary), its
nearest declaring ancestor in the MRO is `B`, its resolved value is `B`'s, yet
the recorded provenance is `("M", "A.m")` — the farthest ancestor's site, not
the nearest one's — so the first-sight-only provenance claim fails. -/
theorem C1_taken_from_cex :
    alookup nodeCcx.dict "m" = none ∧
    firstDecl [nodeBcx, nodeAcx] "m" = some nodeBcx ∧
    alookup (classMemberObjects envC cexC1).1 "m" = some (PyVal.obj 10 none) ∧
    alookup (classMemberObjects envC cexC1).2 "m" = some ("M", "A.m") ∧
    ("M", "A.m") ≠ ("M", "B.m") := by
  refine ⟨by decide, by decide, by decide, by decide, by decide⟩

/-- Witness for the amended C1 on the same concrete chain. -/
theorem C1_taken_from_amended_witness :
    alookup (classMemberObjects envC cexC1).1 "m" = alookup nodeBcx.dict "m" ∧
    alookup (classMemberObjects envC cexC1).2 "m" = some (siteOf nodeAcx "m") :=
  C1_taken_from_amended envC cexC1 "m" nodeBcx nodeAcx (by decide) (by decide) (by decide)

/-- Whether the metaclass `__call__` qualifies as a substitute constructor:
present, user-defined, and carrying a docstring that is neither absent nor
`object.__call__`'s. -/
def callQualifiesB (env : PyEnv) (c : ClassInput) : Bool :=
  match c.metaCall with
  | some (callv, nud) =>
    !nud && !(valDoc env callv == none) && !(valDoc env callv == some env.objectCallDoc)
  | none => false

/-- Whether the class `__new__` qualifies as a substitute constructor. -/
def newQualifiesB (env : PyEnv) (c : ClassInput) : Bool :=
  match c.clsNew with
  | some (newv, nud) =>
    !nud && !(valDoc env newv == none) && !(valDoc env newv == some env.objectNewDoc)
  | none => false

theorem preInit_lookup (env : PyEnv) (c : ClassInput) :
    alookup (varsPass c (docPass env (forcedPass c (mroWalk c.mro ([], c.defs0))).1))
      "__init__" = some (c.attrV "__init__") := by
  unfold varsPass
  apply varsPass_preserve
  rw [docPass_skip env _ _ (by decide), forcedPass_init]

theorem initFixup_eval (env : PyEnv) (c : ClassInput) (m : List (String × PyVal)) (i : PyVal)
    (hm : alookup m "__init__" = some i)
    (hdoc : valDoc env i = none ∨ valDoc env i = some env.objectInitDoc) :
    ((c.isAbstract = true ∨ c.isEnumSub = true ∨ c.isDictSub = true) →
      alookup (initFixup env c m) "__init__" = none) ∧
    (c.isAbstract = false → c.isEnumSub = false → c.isDictSub = false →
      (∀ callv nud, c.metaCall = some (callv, nud) →
        callQualifiesB env c = true →
        alookup (initFixup env c m) "__init__" = some callv) ∧
      (callQualifiesB env c = false →
        ∀ newv nud, c.clsNew = some (newv, nud) →
        newQualifiesB env c = true →
        alookup (initFixup env c m) "__init__" = some newv)) := by
  have hcond : valDoc env ((alookup m "__init__").getD env.objectInit) = none ∨
      valDoc env ((alookup m "__init__").getD env.objectInit) = some env.objectInitDoc := by
    rw [hm]
    exact hdoc
  constructor
  · intro hor
    unfold initFixup
    rw [if_pos hcond]
    by_cases hA : c.isAbstract = true
    · rw [if_pos hA, alookup_eraseL, if_pos rfl]
    · rw [if_neg hA]
      by_cases hE : c.isEnumSub = true
      · rw [if_pos hE, alookup_eraseL, if_pos rfl]
      · rw [if_neg hE]
        have hD : c.isDictSub = true := by
          rcases hor with h | h | h
          · exact absurd h hA
          · exact absurd h hE
          · exact h
        rw [if_pos hD, alookup_eraseL, if_pos rfl]
  · intro hA hE hD
    constructor
    · intro callv nud hmc hq
      unfold initFixup
      rw [if_pos hcond, if_neg (by rw [hA]; simp), if_neg (by rw [hE]; simp),
        if_neg (by rw [hD]; simp)]
      unfold callQualifiesB at hq
      simp only [hmc] at hq
      simp only [hmc]
      rw [if_pos hq, alookup_insertL, if_pos rfl]
    · intro hqf newv nud2 hnew hnq
      unfold initFixup
      rw [if_pos hcond, if_neg (by rw [hA]; simp), if_neg (by rw [hE]; simp),
        if_neg (by rw [hD]; simp)]
      unfold newQualifiesB at hnq
      simp only [hnew] at hnq
      have hnewgoal : alookup (newFixup env c m) "__init__" = some newv := by
        unfold newFixup
        simp only [hnew]
        rw [if_pos hnq, alookup_insertL, if_pos rfl]
      unfold callQualifiesB at hqf
      cases hmc : c.metaCall with
      | none =>
        simp only [hmc]
        exact hnewgoal
      | some p =>
        obtain ⟨callv, nud⟩ := p
        simp only [hmc] at hqf
        simp only [hmc]
        rw [if_neg (by rw [hqf]; simp)]
        exact hnewgoal

/-- C3 amended: the suppression condition on the resolved constructor's raw
`__doc__` is "absent (`None`) or identical to `object.__init__`'s docstring" —
an empty-string docstring does not trigger it.  Under that condition an
abstract class, an `enum.Enum` subclass or a `dict` subclass loses its
`'__init__'` entry; otherwise a qualifying metaclass `__call__` (user-defined,
docstring present and different from `object.__call__`'s) becomes the
`'__init__'` entry, and failing that a qualifying `__new__` does. -/
theorem C3_init_suppression_amended (env : PyEnv) (c : ClassInput)
    (hdoc : valDoc env (c.attrV "__init__") = none ∨
      valDoc env (c.attrV "__init__") = some env.objectInitDoc) :
    ((c.isAbstract = true ∨ c.isEnumSub = true ∨ c.isDictSub = true) →
      alookup (classMemberObjects env c).1 "__init__" = none) ∧
    (c.isAbstract = false → c.isEnumSub = false → c.isDictSub = false →
      (∀ callv nud, c.metaCall = some (callv, nud) →
        callQualifiesB env c = true →
        alookup (classMemberObjects env c).1 "__init__" = some callv) ∧
      (callQualifiesB env c = false →
        ∀ newv nud, c.clsNew = some (newv, nud) →
        newQualifiesB env c = true →
        alookup (classMemberObjects env c).1 "__init__" = some newv)) :=
  initFixup_eval env c
    (varsPass c (docPass env (forcedPass c (mroWalk c.mro ([], c.defs0))).1))
    (c.attrV "__init__") (preInit_lookup env c) hdoc

/-- A dict subclass whose own `__init__` carries the empty string as its raw
docstring (`def __init__…` with docstring `""`). -/
def cexC3 : ClassInput :=
  { module := "M"
    qualname := "D"
    mro := [⟨"M", "D", []⟩]
    attrV := fun _ => PyVal.obj 7 (some "")
    varNames := []
    subscr := fun _ => none
    defs0 := []
    isAbstract := false
    isEnumSub := false
    isDictSub := true
    metaCall := none
    clsNew := none }

/-- C3 counterexample: the claim counts an empty-string constructor docstring
as triggering suppression, but the code tests `__doc__ in (None,
object.__init__.__doc__)`, so a dict subclass whose `__init__` docstring is
`""` (empty, and different from `object.__init__`'s) keeps its `'__init__'`
member instead of losing it. -/
theorem C3_init_suppression_cex :
    valDoc envC (cexC3.attrV "__init__") = some "" ∧
    ¬("" : String) = envC.objectInitDoc ∧
    cexC3.isDictSub = true ∧
    alookup (classMemberObjects envC cexC3).1 "__init__" = some (PyVal.obj 7 (some "")) := by
  refine ⟨by decide, by decide, by decide, by decide⟩

/-- A dict subclass whose resolved `__init__` has no docstring at all. -/
def witC3 : ClassInput :=
  { module := "M"
    qualname := "E"
    mro := [⟨"M", "E", []⟩]
    attrV := fun _ => PyVal.obj 3 none
    varNames := []
    subscr := fun _ => none
    defs0 := []
    isAbstract := false
    isEnumSub := false
    isDictSub := true
    metaCall := none
    clsNew := none }

/-- Witness for the amended C3: a dict subclass with an undocumented
constructor has no `'__init__'` member. -/
theorem C3_init_suppression_amended_witness :
    alookup (classMemberObjects envC witC3).1 "__init__" = none :=
  (C3_init_suppression_amended envC witC3 (Or.inl (by decide))).1 (Or.inr (Or.inr (by decide)))

/-
Module member resolution with an explicit `__all__`
(`SourceCodeModuleParser.member_objects`,
src/VPLCodeGenerator/parser/source_code_parser/source_code_parser.py,
lines 208-228).

Per listed name: the module `__dict__` value if bound, the `empty` sentinel if
the name only has a scanned annotation, otherwise `import_module(name)` —
guarded by `except RuntimeError` only, which warns and substitutes `empty`;
any other exception (in particular the `ImportError`/`ModuleNotFoundError`
that a failing import actually raises) propagates out of `member_objects`.
The dynamic import is an input returning either a value or the kind of
exception it raises.
-/

inductive PyExn where
  | runtimeErr
  | importErr
  | otherErr
deriving DecidableEq

structure ModInput where
  name : String
  allNames : List String
  dict : List (String × PyVal)
  varAnnKeys : List String
  importM : String → Except PyExn PyVal

/-- Embedding of the `__all__` branch of `SourceCodeModuleParser.member_objects`:
the members mapping plus the warnings emitted, or the exception that escapes. -/
def moduleMembersAll (c : ModInput) : Except PyExn (List (String × PyVal) × List String) :=
  c.allNames.foldlM
    (fun acc n =>
      if (alookup c.dict n).isSome then
        Except.ok (insertL acc.1 n ((alookup c.dict n).getD PyVal.empty), acc.2)
      else if n ∈ c.varAnnKeys then
        Except.ok (insertL acc.1 n PyVal.empty, acc.2)
      else
        match c.importM n with
        | Except.ok v => Except.ok (insertL acc.1 n v, acc.2)
        | Except.error e =>
          if e = PyExn.runtimeErr then
            Except.ok (insertL acc.1 n PyVal.empty,
              acc.2 ++ ["Found " ++ n ++ " in " ++ c.name ++ ".__all__, but it does not resolve"])
          else Except.error e)
    ([], [])

/-- A module whose `__all__` lists an unimportable name: `import_module`
raises `ModuleNotFoundError` (an `ImportError`), not `RuntimeError`. -/
def cexC4 : ModInput :=
  { name := "pkg"
    allNames := ["ghost"]
    dict := []
    varAnnKeys := []
    importM := fun _ => Except.error PyExn.importErr }

/-- The same module under a dynamic importer that raises `RuntimeError`
instead — the only exception class the handler catches. -/
def cexC4run : ModInput :=
  { name := "pkg"
    allNames := ["ghost"]
    dict := []
    varAnnKeys := []
    importM := fun _ => Except.error PyExn.runtimeErr }

/-- C4: the resolution pass survives a failed dynamic import only when the
failure is a `RuntimeError`; the `ImportError` an unimportable `__all__` entry
actually produces escapes `member_objects` instead of being converted to the
"no value known" sentinel with a warning, contradicting the documented
soft-failure behaviour. -/
theorem C4_all_import_failure :
    moduleMembersAll cexC4 = Except.error PyExn.importErr ∧
    moduleMembersAll cexC4run =
      Except.ok ([("ghost", PyVal.empty)],
        ["Found ghost in pkg.__all__, but it does not resolve"]) := by
  constructor
  · rfl
  · rfl

/-
Inheritance-chain docstring/annotation merge
(`SourceCodeClassParser._var_docstring_annotations_in_inheritance_chain`,
src/VPLCodeGenerator/parser/source_code_parser/source_code_parser.py,
lines 295-317).

A class is a node carrying its own-body scanner tables (docstrings and
annotation texts keyed by variable name) together with the parsers the walk
will construct for its MRO tail (`__mro__[1:]` with `object` skipped), each of
which is itself such a node.  The walk starts from the class's own tables,
seeds `_definitions` with the own names, and then, ancestor by ancestor in MRO
order, folds in `SourceCodeClassParser(cls)`'s tables — which are that
ancestor's *recursively merged* tables, not its own body's — with
`setdefault`, recording `(cls.__module__, cls.__qualname__ + "." + name)` in
`_definitions` for every name of the folded tables on first sight.
-/

structure CInfo where
  module : String
  qualname : String
  ownDoc : List (String × String)
  ownAnn : List (String × String)
deriving DecidableEq

inductive VCls where
  | mk (info : CInfo) (mroTail : List VCls)

def VCls.info : VCls → CInfo
  | .mk i _ => i

structure ChainOut where
  docs : List (String × String)
  anns : List (String × String)
  defs : List (String × (String × String))

/-- The names of a class's own scanner tables
(`var_docstring.keys() | var_annotations.keys()`, modulo iteration order,
which `setdefault` makes irrelevant for lookups). -/
def ownNames (i : CInfo) : List String :=
  i.ownDoc.map Prod.fst ++ i.ownAnn.map Prod.fst

/-- Seed `setdefault` of a declaration site for each name of a list. -/
def seedDefs (names : List String) (site : String → String × String)
    (d : List (String × (String × String))) : List (String × (String × String)) :=
  names.foldl (fun acc n => setdefaultL acc n (site n)) d

/-- The state after the "variable in current object" part of the constructor
walk: own tables and `_definitions` seeded with the own declaration sites. -/
def initOut (i : CInfo) : ChainOut :=
  { docs := i.ownDoc
    anns := i.ownAnn
    defs := seedDefs (ownNames i) (fun n => (i.module, i.qualname ++ "." ++ n)) [] }

/-- One ancestor fold step: `setdefault` the ancestor parser's tables into the
accumulated ones and seed `_definitions` with the ancestor's site for each of
the folded names. -/
def foldAncestor (acc : ChainOut) (b : CInfo) (p : ChainOut) : ChainOut :=
  { docs := foldSetdefault acc.docs p.docs
    anns := foldSetdefault acc.anns p.anns
    defs := seedDefs (p.docs.map Prod.fst ++ p.anns.map Prod.fst)
      (fun n => (b.module, b.qualname ++ "." ++ n)) acc.defs }

mutual
/-- Embedding of the chain walk a `SourceCodeClassParser` performs at
construction: the effective var-docstring table, var-annotation table and
`_definitions` provenance table. -/
def chainWalk : VCls → ChainOut
  | .mk i tail => walkTail (initOut i) tail

/-- The ancestor loop of the chain walk; each ancestor contributes its own
recursively constructed parser tables. -/
def walkTail : ChainOut → List VCls → ChainOut
  | acc, [] => acc
  | acc, cls :: rest => walkTail (foldAncestor acc cls.info (chainWalk cls)) rest
end

/-- The table value the specification sentence ascribes to a name: walking the
class itself and its ancestors nearest-to-farthest, the first *own-body*
docstring table that binds the name supplies it. -/
def specDocVal (l : List CInfo) (n : String) : Option String :=
  l.findSome? (fun i => alookup i.ownDoc n)

/-- Same as `specDocVal` for the annotation tables. -/
def specAnnVal (l : List CInfo) (n : String) : Option String :=
  l.findSome? (fun i => alookup i.ownAnn n)

/-- Whether a name is bound in any own-body table along a chain. -/
def specHas (l : List CInfo) (n : String) : Bool :=
  (specDocVal l n).isSome || (specAnnVal l n).isSome

/-- The provenance the specification sentence ascribes to a name: the nearest
class of the chain whose own body declares it. -/
def specDefs (l : List CInfo) (n : String) : Option (String × String) :=
  l.findSome? (fun i =>
    if (alookup i.ownDoc n).isSome || (alookup i.ownAnn n).isSome then
      some (i.module, i.qualname ++ "." ++ n)
    else none)

/-- The suffix chains of a single-inheritance chain, each class carrying the
rest of the chain as its MRO tail. -/
def mkLinList : List CInfo → List VCls
  | [] => []
  | j :: r => VCls.mk j (mkLinList r) :: mkLinList r

/-- A single-inheritance chain presented to the resolver. -/
def mkLin (i : CInfo) (rest : List CInfo) : VCls :=
  VCls.mk i (mkLinList rest)

theorem oor_absorb {α : Type} {a b : Option α} (h : a = none → b = none) : oor a b = a := by
  cases ha : a
  · rw [oor_none_left, h ha]
  · rw [oor_some_left]

theorem alookup_seedDefs (site : String → String × String) :
    ∀ (names : List String) (d : List (String × (String × String))) (n : String),
      alookup (seedDefs names site d) n =
        oor (alookup d n) (if n ∈ names then some (site n) else none) := by
  intro names
  induction names with
  | nil =>
    intro d n
    show alookup d n = oor (alookup d n) (if n ∈ ([] : List String) then some (site n) else none)
    rw [if_neg (by simp), oor_none_right]
  | cons a rest ih =>
    intro d n
    show alookup (seedDefs rest site (setdefaultL d a (site a))) n = _
    rw [ih, alookup_setdefaultL]
    by_cases hn : n = a
    · rw [hn]
      have e1 : (if a = a then oor (alookup d a) (some (site a)) else alookup d a) =
          oor (alookup d a) (some (site a)) := if_pos rfl
      rw [e1]
      have e2 : (if a ∈ a :: rest then some (site a) else none) = some (site a) :=
        if_pos (List.mem_cons_self a rest)
      rw [e2, oor_assoc, oor_some_left]
    · rw [if_neg hn]
      by_cases hr : n ∈ rest
      · rw [if_pos hr, if_pos (List.mem_cons_of_mem a hr)]
      · rw [if_neg hr, if_neg (by simp [List.mem_cons, hn, hr])]

theorem alookup_isSome_iff_mem {α : Type} :
    ∀ (l : List (String × α)) (n : String),
      (alookup l n).isSome = true ↔ n ∈ l.map Prod.fst := by
  intro l
  induction l with
  | nil => intro n; simp [alookup]
  | cons p t ih =>
    intro n
    simp only [alookup, List.map_cons, List.mem_cons]
    by_cases hp : p.1 = n
    · rw [if_pos hp]
      simp [hp]
    · rw [if_neg hp]
      constructor
      · intro h
        exact Or.inr ((ih n).mp h)
      · intro h
        rcases h with h | h
        · exact absurd h.symm hp
        · exact (ih n).mpr h

theorem specDocVal_cons (i : CInfo) (rest : List CInfo) (n : String) :
    specDocVal (i :: rest) n = oor (alookup i.ownDoc n) (specDocVal rest n) := by
  unfold specDocVal
  rw [List.findSome?_cons]
  cases alookup i.ownDoc n <;> rfl

theorem specAnnVal_cons (i : CInfo) (rest : List CInfo) (n : String) :
    specAnnVal (i :: rest) n = oor (alookup i.ownAnn n) (specAnnVal rest n) := by
  unfold specAnnVal
  rw [List.findSome?_cons]
  cases alookup i.ownAnn n <;> rfl

theorem specHas_tail {j : CInfo} {l : List CInfo} {n : String}
    (h : ¬specHas (j :: l) n = true) : ¬specHas l n = true := by
  intro hl
  apply h
  unfold specHas at hl ⊢
  rw [Bool.or_eq_true] at hl ⊢
  rw [specDocVal_cons, specAnnVal_cons]
  rcases hl with hd | ha
  · left
    cases ho : alookup j.ownDoc n
    · rw [oor_none_left]
      exact hd
    · rfl
  · right
    cases ho : alookup j.ownAnn n
    · rw [oor_none_left]
      exact ha
    · rfl

/-- The provenance site the accumulated walk records for the names a chain
contributes: the head of the chain when the name is visible anywhere in it. -/
def specSite (l : List CInfo) (n : String) : Option (String × String) :=
  match l with
  | [] => none
  | j :: _ => if specHas l n = true then some (j.module, j.qualname ++ "." ++ n) else none

theorem specSite_cons (j : CInfo) (l : List CInfo) (n : String) :
    specSite (j :: l) n =
      if specHas (j :: l) n = true then some (j.module, j.qualname ++ "." ++ n) else none := rfl

theorem linWalk (rest : List CInfo) :
    ∀ (acc : ChainOut) (n : String),
      alookup (walkTail acc (mkLinList rest)).docs n =
        oor (alookup acc.docs n) (specDocVal rest n) ∧
      alookup (walkTail acc (mkLinList rest)).anns n =
        oor (alookup acc.anns n) (specAnnVal rest n) ∧
      alookup (walkTail acc (mkLinList rest)).defs n =
        oor (alookup acc.defs n) (specSite rest n) := by
  induction rest with
  | nil =>
    intro acc n
    refine ⟨?_, ?_, ?_⟩
    · show alookup acc.docs n = oor (alookup acc.docs n) none
      rw [oor_none_right]
    · show alookup acc.anns n = oor (alookup acc.anns n) none
      rw [oor_none_right]
    · show alookup acc.defs n = oor (alookup acc.defs n) none
      rw [oor_none_right]
  | cons j r ih =>
    intro acc n
    have hP := ih (initOut j) n
    have hPdocs : alookup (chainWalk (mkLin j r)).docs n = specDocVal (j :: r) n := by
      show alookup (walkTail (initOut j) (mkLinList r)).docs n = _
      rw [hP.1, specDocVal_cons]
      rfl
    have hPanns : alookup (chainWalk (mkLin j r)).anns n = specAnnVal (j :: r) n := by
      show alookup (walkTail (initOut j) (mkLinList r)).anns n = _
      rw [hP.2.1, specAnnVal_cons]
      rfl
    have hout := ih (foldAncestor acc j (chainWalk (mkLin j r))) n
    have hmemiff :
        (n ∈ (chainWalk (mkLin j r)).docs.map Prod.fst ++
            (chainWalk (mkLin j r)).anns.map Prod.fst) ↔
          specHas (j :: r) n = true := by
      rw [List.mem_append, ← alookup_isSome_iff_mem, ← alookup_isSome_iff_mem,
        hPdocs, hPanns]
      unfold specHas
      rw [Bool.or_eq_true]
    refine ⟨?_, ?_, ?_⟩
    · show alookup
        (walkTail (foldAncestor acc j (chainWalk (mkLin j r))) (mkLinList r)).docs n = _
      rw [hout.1]
      show oor (alookup (foldSetdefault acc.docs (chainWalk (mkLin j r)).docs) n)
        (specDocVal r n) = _
      rw [alookup_foldSetdefault, hPdocs, oor_assoc]
      have habs : oor (specDocVal (j :: r) n) (specDocVal r n) = specDocVal (j :: r) n := by
        apply oor_absorb
        intro h
        rw [specDocVal_cons] at h
        cases ho : alookup j.ownDoc n
        · rw [ho, oor_none_left] at h
          exact h
        · rw [ho, oor_some_left] at h
          exact absurd h (by simp)
      rw [habs]
    · show alookup
        (walkTail (foldAncestor acc j (chainWalk (mkLin j r))) (mkLinList r)).anns n = _
      rw [hout.2.1]
      show oor (alookup (foldSetdefault acc.anns (chainWalk (mkLin j r)).anns) n)
        (specAnnVal r n) = _
      rw [alookup_foldSetdefault, hPanns, oor_assoc]
      have habs : oor (specAnnVal (j :: r) n) (specAnnVal r n) = specAnnVal (j :: r) n := by
        apply oor_absorb
        intro h
        rw [specAnnVal_cons] at h
        cases ho : alookup j.ownAnn n
        · rw [ho, oor_none_left] at h
          exact h
        · rw [ho, oor_some_left] at h
          exact absurd h (by simp)
      rw [habs]
    · show alookup
        (walkTail (foldAncestor acc j (chainWalk (mkLin j r))) (mkLinList r)).defs n = _
      rw [hout.2.2]
      show oor (alookup (seedDefs
          ((chainWalk (mkLin j r)).docs.map Prod.fst ++
            (chainWalk (mkLin j r)).anns.map Prod.fst)
          (fun n2 => (j.module, j.qualname ++ "." ++ n2)) acc.defs) n)
        (specSite r n) = _
      rw [alookup_seedDefs, oor_assoc, specSite_cons]
      by_cases hsh : specHas (j :: r) n = true
      · rw [if_pos (hmemiff.mpr hsh), if_pos hsh, oor_some_left]
      · rw [if_neg (fun hm => hsh (hmemiff.mp hm)), if_neg hsh, oor_none_left]
        have hYr : specSite r n = none := by
          cases r with
          | nil => rfl
          | cons k r2 =>
            rw [specSite_cons, if_neg (specHas_tail hsh)]
        rw [hYr]

/-- C5 amended: the ancestor fold uses each ancestor's recursively merged
tables, not its own body's.  For a single-inheritance chain the effective
var-docstring and var-annotation tables still equal the own-body tables folded
nearest-to-farthest with first-write-wins per name, but the side `definitions`
table records the class itself for names its own body supplies and otherwise
the *immediate base* (the first MRO successor, through whose merged tables the
name is visible) — not necessarily the nearest ancestor that declares the
name; under multiple inheritance even the value tables can take a farther
ancestor's entry through an intermediate base. -/
theorem C5_chain_tables_amended (i : CInfo) (rest : List CInfo) (n : String) :
    alookup (chainWalk (mkLin i rest)).docs n = specDocVal (i :: rest) n ∧
    alookup (chainWalk (mkLin i rest)).anns n = specAnnVal (i :: rest) n ∧
    alookup (chainWalk (mkLin i rest)).defs n =
      (if ((alookup i.ownDoc n).isSome || (alookup i.ownAnn n).isSome) = true then
        some (i.module, i.qualname ++ "." ++ n)
      else specSite rest n) := by
  have h := linWalk rest (initOut i) n
  have hmem : (n ∈ ownNames i) ↔
      ((alookup i.ownDoc n).isSome || (alookup i.ownAnn n).isSome) = true := by
    unfold ownNames
    rw [List.mem_append, ← alookup_isSome_iff_mem, ← alookup_isSome_iff_mem,
      Bool.or_eq_true]
  refine ⟨?_, ?_, ?_⟩
  · show alookup (walkTail (initOut i) (mkLinList rest)).docs n = _
    rw [h.1, specDocVal_cons]
    rfl
  · show alookup (walkTail (initOut i) (mkLinList rest)).anns n = _
    rw [h.2.1, specAnnVal_cons]
    rfl
  · show alookup (walkTail (initOut i) (mkLinList rest)).defs n = _
    rw [h.2.2]
    show oor (alookup (seedDefs (ownNames i)
        (fun n2 => (i.module, i.qualname ++ "." ++ n2)) []) n) (specSite rest n) = _
    rw [alookup_seedDefs]
    show oor (oor none
        (if n ∈ ownNames i then some (i.module, i.qualname ++ "." ++ n) else none))
      (specSite rest n) = _
    rw [oor_none_left]
    by_cases ho : ((alookup i.ownDoc n).isSome || (alookup i.ownAnn n).isSome) = true
    · rw [if_pos (hmem.mpr ho), if_pos ho, oor_some_left]
    · rw [if_neg (fun hm => ho (hmem.mp hm)), if_neg ho, oor_none_left]

/-- The diamond `D(B, C)`, `B(A)`, `C(A)` in module `"M"`: variable `"n"` is
annotated in `C`'s body and in `A`'s body only.  `D`'s MRO tail is
`[B, C, A]`; `B`'s and `C`'s is `[A]`. -/
def dA : CInfo := ⟨"M", "A", [], [("n", "intA")]⟩

def dB : CInfo := ⟨"M", "B", [], []⟩

def dC : CInfo := ⟨"M", "C", [], [("n", "intC")]⟩

def dD : CInfo := ⟨"M", "D", [], []⟩

def vA : VCls := VCls.mk dA []

def vB : VCls := VCls.mk dB [vA]

def vCd : VCls := VCls.mk dC [vA]

def vD : VCls := VCls.mk dD [vB, vCd, vA]

/-- C5 counterexample: on the diamond, the nearest ancestor of `D` declaring
`"n"` is `C` (value `"intC"`, site `C.n`), but the walk folds `B`'s
recursively merged tables first, through which `A`'s entry is already visible,
so `D`'s effective annotation for `"n"` is `"intA"` and its recorded
definition site is `("M", "B.n")` — `B` does not declare `"n"` at all. -/
theorem C5_chain_tables_cex :
    alookup (chainWalk vD).anns "n" = some "intA" ∧
    alookup (chainWalk vD).defs "n" = some ("M", "B.n") ∧
    specAnnVal [dD, dB, dC, dA] "n" = some "intC" ∧
    specDefs [dD, dB, dC, dA] "n" = some ("M", "C.n") ∧
    ¬(some "intA" : Option String) = some "intC" ∧
    ¬(some ("M", "B.n") : Option (String × String)) = some ("M", "C.n") := by
  refine ⟨by decide, by decide, by decide, by decide, by decide, by decide⟩
